import Mathlib

/-!
Verification development for the `ac-lambda-deployment` tool.

The source is a single-class Node.js deployer (`LambdaDeployer`).  We shallowly
embed its reconciliation engine: every remote AWS call the deployer issues is
recorded as an `Event` in a trace, and the asynchronous remote API is modelled
by oracles (functions from attempt / poll indices to outcomes).  JavaScript
truthiness of optional config fields (`x || default`, `if (x)`) is modelled
explicitly: numbers are falsy at 0, strings are falsy when empty, arrays and
objects are always truthy when present.

Two generations of update logic appear in the repository.  The current one
(`part_000`) has `updateWithRetry`, `waitForFunctionReady`,
`updateFunctionSequential`; the older one (`part_001`) has an `updateFunction`
whose send is returned from the `try` block without `await`.  Both are
embedded below.
-/

/-- Errors of the remote API and of the deployer, following the spec taxonomy.
`resourceNotFound` and `resourceConflict` are the provider's typed signals
(`ResourceNotFoundException`, `ResourceConflictException`); the remaining
constructors model the errors the deployer itself throws. -/
inductive LErr where
  | resourceNotFound
  | resourceConflict
  | previousUpdateFailed
  | timeoutWaiting
  | configurationError (msg : String)
  | other (msg : String)
deriving DecidableEq

/-- One observation made by the readiness poller: either the `GetFunction`
response's `Configuration.State` and `Configuration.LastUpdateStatus`
(each possibly absent), or a query error thrown by the send. -/
inductive PollObs where
  | ok (state : Option String) (lastUpdateStatus : Option String)
  | queryError
deriving DecidableEq

/-- Parameters of a `CreateFunctionCommand`, as assembled by `createFunction`
(part_000 lines 112-130).  The zip buffer is not modelled. -/
structure CreateParams where
  FunctionName : String
  Runtime : String
  Role : Option String
  Handler : String
  Description : String
  Timeout : Nat
  MemorySize : Nat
  Environment : Option (List (String × String))
  Layers : List String
deriving DecidableEq

/-- Parameters of an `UpdateFunctionConfigurationCommand`, as assembled by
`updateFunctionSequential` (part_000 lines 199-208). -/
structure ConfigParams where
  FunctionName : String
  Runtime : String
  Handler : String
  Description : Option String
  Timeout : Nat
  MemorySize : Nat
  Environment : Option (List (String × String))
  Layers : List String
deriving DecidableEq

/-- A remote call issued by the deployer.  Update and delete commands for
event-source mappings carry, besides the UUID actually sent, the
`EventSourceArn` of the remote mapping that UUID belongs to, so that claims
about "which queue identifier a call references" are statable. -/
inductive LambdaCall where
  | getFunction (name : String)
  | createFunction (params : CreateParams)
  | updateFunctionCode (name : String)
  | updateFunctionConfiguration (params : ConfigParams)
  | listEventSourceMappings (name : String)
  | createEventSourceMapping (queueArn functionName : String)
      (batchSize window : Nat) (enabled : Bool)
  | updateEventSourceMapping (uuid queueArn : String)
      (batchSize window : Nat) (enabled : Bool)
  | deleteEventSourceMapping (uuid queueArn : String)
deriving DecidableEq

/-- An entry of the deployer's observable trace: a remote call, a timed sleep
(`setTimeout`), or the final unlink of the local zip artifact. -/
inductive Event where
  | call (c : LambdaCall)
  | wait (ms : Nat)
  | unlinkZip
deriving DecidableEq

/-- JavaScript `v || d` for an optional number: `0` and absence are falsy. -/
def jsOrNat (v : Option Nat) (d : Nat) : Nat :=
  match v with
  | none => d
  | some n => if n = 0 then d else n

/-- JavaScript `v || d` for an optional string: `""` and absence are falsy. -/
def jsOrStr (v : Option String) (d : String) : String :=
  match v with
  | none => d
  | some s => if s = "" then d else s

/-- JavaScript truthiness of an optional number. -/
def natTruthy (v : Option Nat) : Bool :=
  match v with
  | none => false
  | some n => decide ¬(n = 0)

/-- JavaScript truthiness of an optional string. -/
def strTruthy (v : Option String) : Bool :=
  match v with
  | none => false
  | some s => decide ¬(s = "")

/-- One configured SQS trigger (`sqsTriggers` entry of the config). -/
structure Trigger where
  queueArn : String
  batchSize : Option Nat
  maxBatchingWindow : Option Nat
  enabled : Option Bool
deriving DecidableEq

/-- One remote event-source mapping as returned by the listing call. -/
structure Mapping where
  UUID : String
  EventSourceArn : String
deriving DecidableEq

/-- The deployment configuration (desired state), with every optional field
explicit.  Field order: functionName, roleArn, runtime, handler, description,
timeout, memorySize, environment, layers, sqsTriggers. -/
structure Config where
  functionName : String
  roleArn : Option String
  runtime : Option String
  handler : Option String
  description : Option String
  timeout : Option Nat
  memorySize : Option Nat
  environment : Option (List (String × String))
  layers : Option (List String)
  sqsTriggers : Option (List Trigger)
deriving DecidableEq

/-- The `params` built by `createFunction` (part_000 lines 115-126):
`Runtime: config.runtime || 'nodejs22.x'`, `Role: config.roleArn`,
`Handler: config.handler || 'lambda.handler'`,
`Description: config.description || 'Deployed with lambda-deployer'`,
`Timeout: config.timeout || 30`, `MemorySize: config.memorySize || 128`,
`Environment` passed through when present, `Layers: config.layers || []`. -/
def mkCreateParams (cfg : Config) : CreateParams :=
  { FunctionName := cfg.functionName
    Runtime := jsOrStr cfg.runtime "nodejs22.x"
    Role := cfg.roleArn
    Handler := jsOrStr cfg.handler "lambda.handler"
    Description := jsOrStr cfg.description "Deployed with lambda-deployer"
    Timeout := jsOrNat cfg.timeout 30
    MemorySize := jsOrNat cfg.memorySize 128
    Environment := cfg.environment
    Layers := cfg.layers.getD [] }

/-- The `configParams` built by `updateFunctionSequential` (part_000 lines
199-208): `Runtime: config.runtime || 'nodejs18.x'`,
`Handler: config.handler || 'lambda.handler'`,
`Description: config.description` (no default), `Timeout: config.timeout || 30`,
`MemorySize: config.memorySize || 128`, `Environment` passed through,
`Layers: config.layers || []`. -/
def mkConfigParams (functionName : String) (cfg : Config) : ConfigParams :=
  { FunctionName := functionName
    Runtime := jsOrStr cfg.runtime "nodejs18.x"
    Handler := jsOrStr cfg.handler "lambda.handler"
    Description := cfg.description
    Timeout := jsOrNat cfg.timeout 30
    MemorySize := jsOrNat cfg.memorySize 128
    Environment := cfg.environment
    Layers := cfg.layers.getD [] }

/-- Loop body of `updateWithRetry` (part_000 lines 133-148), indexed by
remaining fuel and the loop counter `i`.  `send i` is the outcome of the
awaited `this.lambda.send(command)` on attempt `i`.  On a
`ResourceConflictException` with `i < 2` the code sleeps `(i + 1) * 30000`
milliseconds and retries; any other error, or a conflict on the last attempt,
is rethrown.  If the `for` loop were to run out it would return `undefined`
(success carrying no value), which the fuel-0 case mirrors; with fuel 3 and
`i = 0` that case is unreachable. -/
def updateWithRetryGo (cmd : LambdaCall) (send : Nat → Except LErr Unit) :
    Nat → Nat → Except LErr Unit × List Event
  | 0, _ => (Except.ok (), [])
  | fuel + 1, i =>
    match send i with
    | Except.ok _ => (Except.ok (), [Event.call cmd])
    | Except.error e =>
      if e = LErr.resourceConflict ∧ i < 2 then
        match updateWithRetryGo cmd send fuel (i + 1) with
        | (r, t) => (r, Event.call cmd :: Event.wait ((i + 1) * 30000) :: t)
      else (Except.error e, [Event.call cmd])

/-- `updateWithRetry` (part_000 lines 133-148): `for (let i = 0; i < 3; i++)`. -/
def updateWithRetry (cmd : LambdaCall) (send : Nat → Except LErr Unit) :
    Except LErr Unit × List Event :=
  updateWithRetryGo cmd send 3 0

/-- Number of remote calls in a trace. -/
def callCount (tr : List Event) : Nat :=
  tr.countP fun e => match e with
    | Event.call _ => true
    | _ => false

/-- The sleep durations of a trace, in order. -/
def waitsOf (tr : List Event) : List Nat :=
  tr.filterMap fun e => match e with
    | Event.wait w => some w
    | _ => none

lemma updateWithRetry_ok0 (cmd : LambdaCall) (send : Nat → Except LErr Unit)
    (h0 : send 0 = Except.ok ()) :
    updateWithRetry cmd send = (Except.ok (), [Event.call cmd]) := by
  simp [updateWithRetry, updateWithRetryGo, h0]

lemma updateWithRetry_stop0 (cmd : LambdaCall) (send : Nat → Except LErr Unit)
    (e : LErr) (h0 : send 0 = Except.error e) (hne : e ≠ LErr.resourceConflict) :
    updateWithRetry cmd send = (Except.error e, [Event.call cmd]) := by
  simp [updateWithRetry, updateWithRetryGo, h0, hne]

lemma updateWithRetry_conf0_ok1 (cmd : LambdaCall) (send : Nat → Except LErr Unit)
    (h0 : send 0 = Except.error LErr.resourceConflict) (h1 : send 1 = Except.ok ()) :
    updateWithRetry cmd send =
      (Except.ok (), [Event.call cmd, Event.wait 30000, Event.call cmd]) := by
  simp [updateWithRetry, updateWithRetryGo, h0, h1]

lemma updateWithRetry_conf0_stop1 (cmd : LambdaCall) (send : Nat → Except LErr Unit)
    (e : LErr) (h0 : send 0 = Except.error LErr.resourceConflict)
    (h1 : send 1 = Except.error e) (hne : e ≠ LErr.resourceConflict) :
    updateWithRetry cmd send =
      (Except.error e, [Event.call cmd, Event.wait 30000, Event.call cmd]) := by
  simp [updateWithRetry, updateWithRetryGo, h0, h1, hne]

lemma updateWithRetry_conf01_ok2 (cmd : LambdaCall) (send : Nat → Except LErr Unit)
    (h0 : send 0 = Except.error LErr.resourceConflict)
    (h1 : send 1 = Except.error LErr.resourceConflict) (h2 : send 2 = Except.ok ()) :
    updateWithRetry cmd send =
      (Except.ok (), [Event.call cmd, Event.wait 30000, Event.call cmd,
        Event.wait 60000, Event.call cmd]) := by
  simp [updateWithRetry, updateWithRetryGo, h0, h1, h2]

lemma updateWithRetry_conf01_err2 (cmd : LambdaCall) (send : Nat → Except LErr Unit)
    (e : LErr) (h0 : send 0 = Except.error LErr.resourceConflict)
    (h1 : send 1 = Except.error LErr.resourceConflict) (h2 : send 2 = Except.error e) :
    updateWithRetry cmd send =
      (Except.error e, [Event.call cmd, Event.wait 30000, Event.call cmd,
        Event.wait 60000, Event.call cmd]) := by
  simp [updateWithRetry, updateWithRetryGo, h0, h1, h2]

/-- C3: for every mutating call wrapped in the conflict-retry policy, at most
3 attempts are made in total; any two backoff waits are strictly increasing
(30 s then 60 s); a non-conflict error on attempt 1 propagates immediately
with a single attempt; after a conflict on attempt 1 the policy waits 30 s and
retries; a non-conflict error on attempt 2 after a conflict propagates with no
third attempt; and any error on the third attempt — conflict included —
propagates immediately after exactly 3 attempts and waits of 30 s and 60 s. -/
theorem conflict_retry_policy (cmd : LambdaCall) (send : Nat → Except LErr Unit) :
    callCount (updateWithRetry cmd send).2 ≤ 3 ∧
    (∀ a b l, waitsOf (updateWithRetry cmd send).2 = a :: b :: l → a < b) ∧
    (∀ e, send 0 = Except.error e → e ≠ LErr.resourceConflict →
      updateWithRetry cmd send = (Except.error e, [Event.call cmd])) ∧
    (send 0 = Except.error LErr.resourceConflict → send 1 = Except.ok () →
      updateWithRetry cmd send =
        (Except.ok (), [Event.call cmd, Event.wait 30000, Event.call cmd])) ∧
    (∀ e, send 0 = Except.error LErr.resourceConflict → send 1 = Except.error e →
      e ≠ LErr.resourceConflict →
      updateWithRetry cmd send =
        (Except.error e, [Event.call cmd, Event.wait 30000, Event.call cmd])) ∧
    (∀ e, send 0 = Except.error LErr.resourceConflict →
      send 1 = Except.error LErr.resourceConflict → send 2 = Except.error e →
      updateWithRetry cmd send =
        (Except.error e, [Event.call cmd, Event.wait 30000, Event.call cmd,
          Event.wait 60000, Event.call cmd])) := by
  refine ⟨?_, ?_, ?_, ?_, ?_, ?_⟩
  case _ =>
    rcases h0 : send 0 with e0 | u0
    · by_cases hc0 : e0 = LErr.resourceConflict
      · subst hc0
        rcases h1 : send 1 with e1 | u1
        · by_cases hc1 : e1 = LErr.resourceConflict
          · subst hc1
            rcases h2 : send 2 with e2 | u2
            · rw [updateWithRetry_conf01_err2 cmd send e2 h0 h1 h2]
              norm_num [callCount, List.countP_cons, List.countP_nil]
            · rw [updateWithRetry_conf01_ok2 cmd send h0 h1 (by rw [h2])]
              norm_num [callCount, List.countP_cons, List.countP_nil]
          · rw [updateWithRetry_conf0_stop1 cmd send e1 h0 h1 hc1]
            norm_num [callCount, List.countP_cons, List.countP_nil]
        · rw [updateWithRetry_conf0_ok1 cmd send h0 (by rw [h1])]
          norm_num [callCount, List.countP_cons, List.countP_nil]
      · rw [updateWithRetry_stop0 cmd send e0 h0 hc0]
        norm_num [callCount, List.countP_cons, List.countP_nil]
    · rw [updateWithRetry_ok0 cmd send (by rw [h0])]
      norm_num [callCount, List.countP_cons, List.countP_nil]
  case _ =>
    rcases h0 : send 0 with e0 | u0
    · by_cases hc0 : e0 = LErr.resourceConflict
      · subst hc0
        rcases h1 : send 1 with e1 | u1
        · by_cases hc1 : e1 = LErr.resourceConflict
          · subst hc1
            rcases h2 : send 2 with e2 | u2
            · rw [updateWithRetry_conf01_err2 cmd send e2 h0 h1 h2]
              intro a b l h
              simp [waitsOf] at h
              omega
            · rw [updateWithRetry_conf01_ok2 cmd send h0 h1 (by rw [h2])]
              intro a b l h
              simp [waitsOf] at h
              omega
          · rw [updateWithRetry_conf0_stop1 cmd send e1 h0 h1 hc1]
            intro a b l h
            simp [waitsOf] at h
        · rw [updateWithRetry_conf0_ok1 cmd send h0 (by rw [h1])]
          intro a b l h
          simp [waitsOf] at h
      · rw [updateWithRetry_stop0 cmd send e0 h0 hc0]
        intro a b l h
        simp [waitsOf] at h
    · rw [updateWithRetry_ok0 cmd send (by rw [h0])]
      intro a b l h
      simp [waitsOf] at h
  case _ => exact fun e h0 hne => updateWithRetry_stop0 cmd send e h0 hne
  case _ => exact fun h0 h1 => updateWithRetry_conf0_ok1 cmd send h0 h1
  case _ => exact fun e h0 h1 hne => updateWithRetry_conf0_stop1 cmd send e h0 h1 hne
  case _ => exact fun e h0 h1 h2 => updateWithRetry_conf01_err2 cmd send e h0 h1 h2

/-- A command and a send oracle used as concrete instances in witnesses. -/
def cmdFix : LambdaCall := LambdaCall.updateFunctionCode "fn"

/-- A send oracle that always rejects with a non-conflict error. -/
def sendBoom : Nat → Except LErr Unit := fun _ => Except.error (LErr.other "boom")

theorem conflict_retry_policy_witness :
    updateWithRetry cmdFix sendBoom =
      (Except.error (LErr.other "boom"), [Event.call cmdFix]) :=
  (conflict_retry_policy cmdFix sendBoom).2.2.1 (LErr.other "boom") rfl (by decide)

/-- Loop body of `waitForFunctionReady` (part_000 lines 151-179), indexed by
remaining fuel, the elapsed milliseconds and the poll index.  Each iteration
first checks `Date.now() - startTime < maxWaitMs`; then sends a `GetFunction`
poll: on `State === 'Active' && LastUpdateStatus === 'Successful'` it returns,
on `LastUpdateStatus === 'Failed'` it throws `'Previous update failed'` (the
catch clause rethrows exactly that message), any other observation or query
error is swallowed; then it sleeps 3000 ms and loops.  Time advances only by
the sleeps.  The fuel-0 fallback returns the same timeout error the loop ends
with; the wrapper passes enough fuel that the time check always fires first. -/
def waitForReadyGo (polls : Nat → PollObs) (name : String) (maxWaitMs : Nat) :
    Nat → Nat → Nat → Except LErr Unit × List Event
  | 0, _, _ => (Except.error LErr.timeoutWaiting, [])
  | fuel + 1, elapsed, i =>
    if elapsed < maxWaitMs then
      match polls i with
      | PollObs.ok st lus =>
        if st = some "Active" ∧ lus = some "Successful" then
          (Except.ok (), [Event.call (LambdaCall.getFunction name)])
        else if lus = some "Failed" then
          (Except.error LErr.previousUpdateFailed,
            [Event.call (LambdaCall.getFunction name)])
        else
          match waitForReadyGo polls name maxWaitMs fuel (elapsed + 3000) (i + 1) with
          | (r, t) => (r, Event.call (LambdaCall.getFunction name) :: Event.wait 3000 :: t)
      | PollObs.queryError =>
        match waitForReadyGo polls name maxWaitMs fuel (elapsed + 3000) (i + 1) with
        | (r, t) => (r, Event.call (LambdaCall.getFunction name) :: Event.wait 3000 :: t)
    else (Except.error LErr.timeoutWaiting, [])

/-- `waitForFunctionReady` (part_000 lines 151-179) with its default bound of
120000 ms passed explicitly by the caller. -/
def waitForFunctionReady (polls : Nat → PollObs) (name : String) (maxWaitMs : Nat) :
    Except LErr Unit × List Event :=
  waitForReadyGo polls name maxWaitMs (maxWaitMs / 3000 + 1) 0 0

/-- A poll observation that neither satisfies the success condition nor the
fatal `Failed` condition: the poller keeps polling past it. -/
def transientObs (obs : PollObs) : Bool :=
  match obs with
  | PollObs.queryError => true
  | PollObs.ok st lus =>
    !(decide (st = some "Active" ∧ lus = some "Successful")) &&
      !(decide (lus = some "Failed"))

/-- Number of readiness polls (`GetFunction` sends) in a trace. -/
def pollCount (tr : List Event) : Nat :=
  tr.countP fun e => match e with
    | Event.call (LambdaCall.getFunction _) => true
    | _ => false

/-- Number of `UpdateFunctionConfigurationCommand` sends in a trace. -/
def configUpdateCount (tr : List Event) : Nat :=
  tr.countP fun e => match e with
    | Event.call (LambdaCall.updateFunctionConfiguration _) => true
    | _ => false

lemma waitGo_events (polls : Nat → PollObs) (name : String) (maxW : Nat) :
    ∀ (fuel elapsed i : Nat) (ev : Event),
      ev ∈ (waitForReadyGo polls name maxW fuel elapsed i).2 →
      ev = Event.call (LambdaCall.getFunction name) ∨ ev = Event.wait 3000 := by
  intro fuel
  induction fuel with
  | zero => intro elapsed i ev h; simp [waitForReadyGo] at h
  | succ f ih =>
    intro elapsed i ev h
    by_cases he : elapsed < maxW
    · cases hp : polls i with
      | ok st lus =>
        by_cases hs : st = some "Active" ∧ lus = some "Successful"
        · simp [waitForReadyGo, he, hp, hs.1, hs.2] at h
          exact Or.inl h
        · by_cases hf : lus = some "Failed"
          · simp [waitForReadyGo, he, hp, hs, hf] at h
            exact Or.inl h
          · rcases hgo : waitForReadyGo polls name maxW f (elapsed + 3000) (i + 1) with ⟨r, t⟩
            simp [waitForReadyGo, he, hp, hs, hf, hgo] at h
            rcases h with h | h | h
            · exact Or.inl h
            · exact Or.inr h
            · exact ih (elapsed + 3000) (i + 1) ev (by rw [hgo]; exact h)
      | queryError =>
        rcases hgo : waitForReadyGo polls name maxW f (elapsed + 3000) (i + 1) with ⟨r, t⟩
        simp [waitForReadyGo, he, hp, hgo] at h
        rcases h with h | h | h
        · exact Or.inl h
        · exact Or.inr h
        · exact ih (elapsed + 3000) (i + 1) ev (by rw [hgo]; exact h)
    · simp [waitForReadyGo, he] at h

lemma waitGo_ok_mem (polls : Nat → PollObs) (name : String) (maxW : Nat) :
    ∀ (fuel elapsed i : Nat),
      (waitForReadyGo polls name maxW fuel elapsed i).1 = Except.ok () →
      Event.call (LambdaCall.getFunction name) ∈
        (waitForReadyGo polls name maxW fuel elapsed i).2 := by
  intro fuel
  induction fuel with
  | zero => intro elapsed i h; simp [waitForReadyGo] at h
  | succ f ih =>
    intro elapsed i h
    by_cases he : elapsed < maxW
    · cases hp : polls i with
      | ok st lus =>
        by_cases hs : st = some "Active" ∧ lus = some "Successful"
        · simp [waitForReadyGo, he, hp, hs.1, hs.2]
        · by_cases hf : lus = some "Failed"
          · simp [waitForReadyGo, he, hp, hs, hf] at h
          · rcases hgo : waitForReadyGo polls name maxW f (elapsed + 3000) (i + 1) with ⟨r, t⟩
            simp [waitForReadyGo, he, hp, hs, hf, hgo]
      | queryError =>
        rcases hgo : waitForReadyGo polls name maxW f (elapsed + 3000) (i + 1) with ⟨r, t⟩
        simp [waitForReadyGo, he, hp, hgo]
    · simp [waitForReadyGo, he] at h

lemma waitGo_fail (polls : Nat → PollObs) (name : String) (maxW : Nat) (st : Option String) :
    ∀ (k fuel s elapsed : Nat),
      (∀ j, j < k → transientObs (polls (s + j)) = true) →
      polls (s + k) = PollObs.ok st (some "Failed") →
      elapsed + 3000 * k < maxW →
      k < fuel →
      (waitForReadyGo polls name maxW fuel elapsed s).1 =
          Except.error LErr.previousUpdateFailed ∧
        pollCount (waitForReadyGo polls name maxW fuel elapsed s).2 = k + 1 := by
  intro k
  induction k with
  | zero =>
    intro fuel s elapsed htrans hfail hlt hfuel
    cases fuel with
    | zero => omega
    | succ f =>
      have he : elapsed < maxW := by omega
      have hp : polls s = PollObs.ok st (some "Failed") := by
        have : s + 0 = s := rfl
        rw [this] at hfail
        exact hfail
      have hs : ¬(st = some "Active" ∧ (some "Failed" : Option String) = some "Successful") := by
        rintro ⟨-, hbad⟩
        simp at hbad
      simp [waitForReadyGo, he, hp, hs, pollCount]
  | succ k ih =>
    intro fuel s elapsed htrans hfail hlt hfuel
    cases fuel with
    | zero => omega
    | succ f =>
      have he : elapsed < maxW := by omega
      have ht0 : transientObs (polls s) = true := by
        have := htrans 0 (by omega)
        have hz : s + 0 = s := rfl
        rw [hz] at this
        exact this
      have hrec := ih f (s + 1) (elapsed + 3000)
        (by
          intro j hj
          have := htrans (j + 1) (by omega)
          have hq : s + (j + 1) = s + 1 + j := by omega
          rw [hq] at this
          exact this)
        (by
          have hq : s + (k + 1) = s + 1 + k := by omega
          rw [hq] at hfail
          exact hfail)
        (by omega)
        (by omega)
      rcases hgo : waitForReadyGo polls name maxW f (elapsed + 3000) (s + 1) with ⟨r, t⟩
      rw [hgo] at hrec
      cases hp : polls s with
      | ok st2 lus2 =>
        rw [hp] at ht0
        simp only [transientObs, Bool.and_eq_true, Bool.not_eq_true', decide_eq_false_iff_not] at ht0
        simp [waitForReadyGo, he, hp, ht0.1, ht0.2, hgo, pollCount] at hrec ⊢
        exact ⟨hrec.1, by rw [hrec.2]⟩
      | queryError =>
        simp [waitForReadyGo, he, hp, hgo, pollCount] at hrec ⊢
        exact ⟨hrec.1, by rw [hrec.2]⟩

/-- The condition of part_000 line 195:
`config.layers || config.environment || config.timeout || config.memorySize || config.description`.
Arrays and objects are truthy whenever present; numbers are falsy at 0;
strings are falsy when empty. -/
def configAffecting (cfg : Config) : Bool :=
  cfg.layers.isSome || cfg.environment.isSome || natTruthy cfg.timeout ||
    natTruthy cfg.memorySize || strTruthy cfg.description

/-- `updateFunctionSequential` (part_000 lines 182-213): update the code via
the conflict-retry policy; if any configuration-affecting field is truthy,
wait for readiness (bounded by the default 120000 ms) and then update the
configuration via the conflict-retry policy.  `codeSend`, `polls` and
`configSend` are the oracles for the three kinds of remote interaction. -/
def updateFunctionSequential (codeSend : Nat → Except LErr Unit)
    (polls : Nat → PollObs) (configSend : Nat → Except LErr Unit)
    (functionName : String) (cfg : Config) : Except LErr Unit × List Event :=
  match updateWithRetry (LambdaCall.updateFunctionCode functionName) codeSend with
  | (Except.error e, t1) => (Except.error e, t1)
  | (Except.ok _, t1) =>
    if configAffecting cfg then
      match waitForFunctionReady polls functionName 120000 with
      | (Except.error e, t2) => (Except.error e, t1 ++ t2)
      | (Except.ok _, t2) =>
        match updateWithRetry
            (LambdaCall.updateFunctionConfiguration (mkConfigParams functionName cfg))
            configSend with
        | (r3, t3) => (r3, t1 ++ t2 ++ t3)
    else (Except.ok (), t1)

/-- C1: against an existing function, with every remote send succeeding on its
first attempt and polling reaching readiness, a configuration update is issued
if and only if a configuration-affecting field (layers, environment, timeout,
memory size, description) is truthy in the config.  With none set the trace is
exactly one code-update call — zero polls, zero configuration updates.  With
at least one set the trace is the code-update call, then a nonempty block of
readiness polls (with their 3-second sleeps), then exactly one
configuration-update call, in that order. -/
theorem sequential_update_config_gate (codeSend : Nat → Except LErr Unit)
    (polls : Nat → PollObs) (configSend : Nat → Except LErr Unit)
    (name : String) (cfg : Config)
    (hcode : codeSend 0 = Except.ok ())
    (hconf : configSend 0 = Except.ok ())
    (hwait : (waitForFunctionReady polls name 120000).1 = Except.ok ()) :
    (configAffecting cfg = false →
      updateFunctionSequential codeSend polls configSend name cfg =
        (Except.ok (), [Event.call (LambdaCall.updateFunctionCode name)])) ∧
    (configAffecting cfg = true →
      ∃ t2, updateFunctionSequential codeSend polls configSend name cfg =
          (Except.ok (), Event.call (LambdaCall.updateFunctionCode name) ::
            (t2 ++ [Event.call (LambdaCall.updateFunctionConfiguration
              (mkConfigParams name cfg))])) ∧
        (∀ ev ∈ t2, ev = Event.call (LambdaCall.getFunction name) ∨
          ev = Event.wait 3000) ∧
        Event.call (LambdaCall.getFunction name) ∈ t2) := by
  have hcr := updateWithRetry_ok0 (LambdaCall.updateFunctionCode name) codeSend hcode
  constructor
  · intro hfa
    simp [updateFunctionSequential, hcr, hfa]
  · intro hfa
    rcases hw : waitForFunctionReady polls name 120000 with ⟨r2, t2⟩
    rw [hw] at hwait
    simp at hwait
    subst hwait
    have hcf := updateWithRetry_ok0
      (LambdaCall.updateFunctionConfiguration (mkConfigParams name cfg)) configSend hconf
    refine ⟨t2, ?_, ?_, ?_⟩
    · simp [updateFunctionSequential, hcr, hfa, hw, hcf]
    · intro ev hev
      exact waitGo_events polls name 120000 (120000 / 3000 + 1) 0 0 ev
        (by rw [show waitForReadyGo polls name 120000 (120000 / 3000 + 1) 0 0 =
          waitForFunctionReady polls name 120000 from rfl, hw]; exact hev)
    · have := waitGo_ok_mem polls name 120000 (120000 / 3000 + 1) 0 0
        (by rw [show waitForReadyGo polls name 120000 (120000 / 3000 + 1) 0 0 =
          waitForFunctionReady polls name 120000 from rfl, hw])
      rw [show waitForReadyGo polls name 120000 (120000 / 3000 + 1) 0 0 =
        waitForFunctionReady polls name 120000 from rfl, hw] at this
      exact this

/-- C2: if, before the success condition is reached, some readiness poll
observes `LastUpdateStatus = 'Failed'` (all earlier polls being transient),
the poller aborts at that poll with the previous-update-failed error, no
further polls occur (the trace holds exactly `i + 1` polls), and the
deployment issues zero configuration-update calls.  The bound `i < 40`
keeps the failing poll inside the 120000 ms budget at 3000 ms per poll. -/
theorem poller_aborts_on_failed (codeSend : Nat → Except LErr Unit)
    (polls : Nat → PollObs) (configSend : Nat → Except LErr Unit)
    (name : String) (cfg : Config) (i : Nat) (st : Option String)
    (hcode : codeSend 0 = Except.ok ())
    (haff : configAffecting cfg = true)
    (hi : i < 40)
    (htrans : ∀ j, j < i → transientObs (polls j) = true)
    (hfail : polls i = PollObs.ok st (some "Failed")) :
    (updateFunctionSequential codeSend polls configSend name cfg).1 =
        Except.error LErr.previousUpdateFailed ∧
      pollCount (updateFunctionSequential codeSend polls configSend name cfg).2 = i + 1 ∧
      configUpdateCount (updateFunctionSequential codeSend polls configSend name cfg).2 = 0 := by
  have hfl := waitGo_fail polls name 120000 st i (120000 / 3000 + 1) 0 0
    (by
      intro j hj
      have := htrans j hj
      have hq : (0 : Nat) + j = j := by omega
      rw [hq]
      exact this)
    (by
      have hq : (0 : Nat) + i = i := by omega
      rw [hq]
      exact hfail)
    (by omega)
    (by norm_num; omega)
  rw [show waitForReadyGo polls name 120000 (120000 / 3000 + 1) 0 0 =
    waitForFunctionReady polls name 120000 from rfl] at hfl
  have hevs := waitGo_events polls name 120000 (120000 / 3000 + 1) 0 0
  rw [show waitForReadyGo polls name 120000 (120000 / 3000 + 1) 0 0 =
    waitForFunctionReady polls name 120000 from rfl] at hevs
  rcases hw : waitForFunctionReady polls name 120000 with ⟨r2, t2⟩
  rw [hw] at hfl hevs
  simp at hfl
  have hcr := updateWithRetry_ok0 (LambdaCall.updateFunctionCode name) codeSend hcode
  rw [hfl.1] at hw
  refine ⟨?_, ?_, ?_⟩
  · simp [updateFunctionSequential, hcr, haff, hw]
  · simp [updateFunctionSequential, hcr, haff, hw, pollCount,
      List.countP_append, List.countP_cons]
    have := hfl.2
    simp [pollCount] at this
    rw [this]
  · simp [updateFunctionSequential, hcr, haff, hw, configUpdateCount,
      List.countP_append, List.countP_cons]
    intro ev hev
    rcases hevs ev hev with h | h <;> subst h <;> simp

/-- A send oracle that always resolves. -/
def sendOkAll : Nat → Except LErr Unit := fun _ => Except.ok ()

/-- A poll oracle that observes a ready function immediately. -/
def pollsReady : Nat → PollObs := fun _ => PollObs.ok (some "Active") (some "Successful")

/-- A poll oracle whose first two polls throw query errors and whose third
observes a failed previous update. -/
def pollsFailAt2 : Nat → PollObs := fun j =>
  if j < 2 then PollObs.queryError else PollObs.ok none (some "Failed")

/-- A configuration with no optional field set. -/
def cfgPlain : Config := ⟨"fn", none, none, none, none, none, none, none, none, none⟩

/-- A configuration whose only truthy field is an (empty) layer list —
arrays are truthy in JavaScript, so this gates the configuration update on. -/
def cfgLayers : Config := ⟨"fn", none, none, none, none, none, none, none, some [], none⟩

theorem sequential_update_config_gate_witness :
    updateFunctionSequential sendOkAll pollsReady sendOkAll "fn" cfgPlain =
      (Except.ok (), [Event.call (LambdaCall.updateFunctionCode "fn")]) :=
  (sequential_update_config_gate sendOkAll pollsReady sendOkAll "fn" cfgPlain
    rfl rfl rfl).1 rfl

theorem poller_aborts_on_failed_witness :
    (updateFunctionSequential sendOkAll pollsFailAt2 sendOkAll "fn" cfgLayers).1 =
        Except.error LErr.previousUpdateFailed ∧
      pollCount (updateFunctionSequential sendOkAll pollsFailAt2 sendOkAll "fn" cfgLayers).2 = 3 ∧
      configUpdateCount
        (updateFunctionSequential sendOkAll pollsFailAt2 sendOkAll "fn" cfgLayers).2 = 0 :=
  poller_aborts_on_failed sendOkAll pollsFailAt2 sendOkAll "fn" cfgLayers 2 none
    rfl rfl (by omega) (by decide) rfl

/-- The call issued for one configured trigger inside the first loop of
`updateEventSourceMappings` (part_000 lines 226-254): an update of the found
mapping's UUID when an existing mapping has the trigger's queue ARN, otherwise
a create.  Both carry `BatchSize: trigger.batchSize || 10`,
`MaximumBatchingWindowInSeconds: trigger.maxBatchingWindow || 0`,
`Enabled: trigger.enabled !== false`. -/
def mkTriggerAction (functionName : String) (existing : List Mapping)
    (trigger : Trigger) : Event :=
  match existing.find? (fun m => decide (m.EventSourceArn = trigger.queueArn)) with
  | some m =>
    Event.call (LambdaCall.updateEventSourceMapping m.UUID m.EventSourceArn
      (jsOrNat trigger.batchSize 10) (jsOrNat trigger.maxBatchingWindow 0)
      (decide ¬(trigger.enabled = some false)))
  | none =>
    Event.call (LambdaCall.createEventSourceMapping trigger.queueArn functionName
      (jsOrNat trigger.batchSize 10) (jsOrNat trigger.maxBatchingWindow 0)
      (decide ¬(trigger.enabled = some false)))

/-- The sequence of remote calls `updateEventSourceMappings` (part_000 lines
216-267) issues when every send succeeds: nothing if the configured trigger
list is empty; otherwise the listing call, then one update-or-create per
configured trigger in configured order, then one delete per existing mapping
whose `EventSourceArn` is not among the configured queue ARNs, in listing
order. -/
def updateEventSourceMappings (functionName : String) (existing : List Mapping)
    (sqsTriggers : List Trigger) : List Event :=
  if sqsTriggers.length = 0 then []
  else
    Event.call (LambdaCall.listEventSourceMappings functionName) ::
      (sqsTriggers.map (mkTriggerAction functionName existing) ++
        (existing.filter
          (fun m => !(decide (m.EventSourceArn ∈ sqsTriggers.map Trigger.queueArn)))).map
          (fun m => Event.call (LambdaCall.deleteEventSourceMapping m.UUID m.EventSourceArn)))

/-- Executes a planned list of calls against a send oracle: each call consumes
the next send outcome; the first rejection aborts the sequence (the awaited
send throws out of the surrounding loop), so later calls are not issued. -/
def runEvents (sends : Nat → Except LErr Unit) : List Event → Nat → Except LErr Unit × List Event
  | [], _ => (Except.ok (), [])
  | Event.call c :: rest, k =>
    match sends k with
    | Except.ok _ =>
      match runEvents sends rest (k + 1) with
      | (r, t) => (r, Event.call c :: t)
    | Except.error e => (Except.error e, [Event.call c])
  | ev :: rest, k =>
    match runEvents sends rest k with
    | (r, t) => (r, ev :: t)

/-- One synchronization pass of `updateEventSourceMappings` run against a send
oracle. -/
def runEventSourceMappings (sends : Nat → Except LErr Unit) (functionName : String)
    (existing : List Mapping) (sqsTriggers : List Trigger) :
    Except LErr Unit × List Event :=
  runEvents sends (updateEventSourceMappings functionName existing sqsTriggers) 0

lemma runEvents_ok (sends : Nat → Except LErr Unit)
    (hok : ∀ k, sends k = Except.ok ()) :
    ∀ (evs : List Event) (k : Nat), runEvents sends evs k = (Except.ok (), evs) := by
  intro evs
  induction evs with
  | nil => intro k; rfl
  | cons e rest ih =>
    intro k
    cases e with
    | call c => simp [runEvents, hok k, ih (k + 1)]
    | wait w => simp [runEvents, ih k]
    | unlinkZip => simp [runEvents, ih k]

lemma runEvents_mem (sends : Nat → Except LErr Unit) :
    ∀ (evs : List Event) (k : Nat) (ev : Event),
      ev ∈ (runEvents sends evs k).2 → ev ∈ evs := by
  intro evs
  induction evs with
  | nil => intro k ev h; simp [runEvents] at h
  | cons e rest ih =>
    intro k ev h
    cases e with
    | call c =>
      cases hs : sends k with
      | error err =>
        simp [runEvents, hs] at h
        simp [h]
      | ok u =>
        rcases hgo : runEvents sends rest (k + 1) with ⟨r, t⟩
        simp [runEvents, hs, hgo] at h
        rcases h with h | h
        · simp [h]
        · exact List.mem_cons_of_mem _ (ih (k + 1) ev (by rw [hgo]; exact h))
    | wait w =>
      rcases hgo : runEvents sends rest k with ⟨r, t⟩
      simp [runEvents, hgo] at h
      rcases h with h | h
      · simp [h]
      · exact List.mem_cons_of_mem _ (ih k ev (by rw [hgo]; exact h))
    | unlinkZip =>
      rcases hgo : runEvents sends rest k with ⟨r, t⟩
      simp [runEvents, hgo] at h
      rcases h with h | h
      · simp [h]
      · exact List.mem_cons_of_mem _ (ih k ev (by rw [hgo]; exact h))

/-- The queue ARNs referenced by update-mapping calls of a trace, in order. -/
def updateArns (tr : List Event) : List String :=
  tr.filterMap fun e => match e with
    | Event.call (LambdaCall.updateEventSourceMapping _ arn _ _ _) => some arn
    | _ => none

/-- The queue ARNs referenced by create-mapping calls of a trace, in order. -/
def createArns (tr : List Event) : List String :=
  tr.filterMap fun e => match e with
    | Event.call (LambdaCall.createEventSourceMapping arn _ _ _ _) => some arn
    | _ => none

/-- The queue ARNs referenced by delete-mapping calls of a trace, in order. -/
def deleteArns (tr : List Event) : List String :=
  tr.filterMap fun e => match e with
    | Event.call (LambdaCall.deleteEventSourceMapping _ arn) => some arn
    | _ => none

/-- An event that creates or updates an event-source mapping. -/
def isCreateOrUpdateESM (ev : Event) : Bool :=
  match ev with
  | Event.call (LambdaCall.createEventSourceMapping _ _ _ _ _) => true
  | Event.call (LambdaCall.updateEventSourceMapping _ _ _ _ _) => true
  | _ => false

/-- An event that deletes an event-source mapping. -/
def isDeleteESM (ev : Event) : Bool :=
  match ev with
  | Event.call (LambdaCall.deleteEventSourceMapping _ _) => true
  | _ => false

lemma find?_mapping_some {R : List Mapping} {q : String} {m : Mapping}
    (h : R.find? (fun mm => decide (mm.EventSourceArn = q)) = some m) :
    m.EventSourceArn = q ∧ q ∈ R.map Mapping.EventSourceArn := by
  have h1 := List.find?_some h
  have h2 := List.mem_of_find?_eq_some h
  simp at h1
  refine ⟨h1, ?_⟩
  rw [← h1]
  exact List.mem_map_of_mem Mapping.EventSourceArn h2

lemma find?_mapping_none {R : List Mapping} {q : String}
    (h : R.find? (fun mm => decide (mm.EventSourceArn = q)) = none) :
    q ∉ R.map Mapping.EventSourceArn := by
  intro hq
  rcases List.mem_map.mp hq with ⟨m, hm, haq⟩
  have := List.find?_eq_none.mp h m hm
  simp at this
  exact this haq

lemma updateArns_map_actions (functionName : String) (R : List Mapping) :
    ∀ S : List Trigger,
      updateArns (S.map (mkTriggerAction functionName R)) =
        (S.map Trigger.queueArn).filter
          (fun q => decide (q ∈ R.map Mapping.EventSourceArn)) := by
  intro S
  induction S with
  | nil => rfl
  | cons t S ih =>
    cases hf : R.find? (fun mm => decide (mm.EventSourceArn = t.queueArn)) with
    | some m =>
      rcases find?_mapping_some hf with ⟨hm, hq⟩
      have hq2 : ∃ a ∈ R, a.EventSourceArn = t.queueArn := by
        rcases List.mem_map.mp hq with ⟨a, ha, hee⟩
        exact ⟨a, ha, hee⟩
      simp [updateArns, mkTriggerAction, hf, List.filterMap_cons, List.filter_cons,
        hm, hq2] at ih ⊢
      exact ih
    | none =>
      have hq := find?_mapping_none hf
      have hq2 : ¬∃ a ∈ R, a.EventSourceArn = t.queueArn := by simpa using hq
      simp [updateArns, mkTriggerAction, hf, List.filterMap_cons, List.filter_cons,
        hq2] at ih ⊢
      exact ih

lemma createArns_map_actions (functionName : String) (R : List Mapping) :
    ∀ S : List Trigger,
      createArns (S.map (mkTriggerAction functionName R)) =
        (S.map Trigger.queueArn).filter
          (fun q => !(decide (q ∈ R.map Mapping.EventSourceArn))) := by
  intro S
  induction S with
  | nil => rfl
  | cons t S ih =>
    cases hf : R.find? (fun mm => decide (mm.EventSourceArn = t.queueArn)) with
    | some m =>
      rcases find?_mapping_some hf with ⟨hm, hq⟩
      have hq2 : ∃ a ∈ R, a.EventSourceArn = t.queueArn := by
        rcases List.mem_map.mp hq with ⟨a, ha, hee⟩
        exact ⟨a, ha, hee⟩
      simp [createArns, mkTriggerAction, hf, List.filterMap_cons, List.filter_cons,
        hq2] at ih ⊢
      exact ih
    | none =>
      have hq := find?_mapping_none hf
      have hq2 : ¬∃ a ∈ R, a.EventSourceArn = t.queueArn := by simpa using hq
      simp [createArns, mkTriggerAction, hf, List.filterMap_cons, List.filter_cons,
        hq2] at ih ⊢
      exact ih

lemma deleteArns_map_actions (functionName : String) (R : List Mapping) :
    ∀ S : List Trigger,
      deleteArns (S.map (mkTriggerAction functionName R)) = [] := by
  intro S
  induction S with
  | nil => rfl
  | cons t S ih =>
    cases hf : R.find? (fun mm => decide (mm.EventSourceArn = t.queueArn)) with
    | some m =>
      simp [deleteArns, mkTriggerAction, hf, List.filterMap_cons] at ih ⊢
      exact ih
    | none =>
      simp [deleteArns, mkTriggerAction, hf, List.filterMap_cons] at ih ⊢
      exact ih

lemma deleteArns_delete_part (arns : List String) :
    ∀ R : List Mapping,
      deleteArns ((R.filter (fun m => !(decide (m.EventSourceArn ∈ arns)))).map
          (fun m => Event.call (LambdaCall.deleteEventSourceMapping m.UUID m.EventSourceArn))) =
        (R.map Mapping.EventSourceArn).filter (fun q => !(decide (q ∈ arns))) := by
  intro R
  induction R with
  | nil => rfl
  | cons m R ih =>
    by_cases hm : m.EventSourceArn ∈ arns
    · simp [List.filter_cons, hm, ih]
    · simp [List.filter_cons, hm, deleteArns, List.filterMap_cons] at ih ⊢
      exact ih

lemma updateArns_delete_part (arns : List String) :
    ∀ R : List Mapping,
      updateArns ((R.filter (fun m => !(decide (m.EventSourceArn ∈ arns)))).map
          (fun m => Event.call (LambdaCall.deleteEventSourceMapping m.UUID m.EventSourceArn))) =
        [] := by
  intro R
  induction R with
  | nil => rfl
  | cons m R ih =>
    by_cases hm : m.EventSourceArn ∈ arns
    · simp [List.filter_cons, hm, ih]
    · simp [List.filter_cons, hm, updateArns, List.filterMap_cons, ih]

lemma createArns_delete_part (arns : List String) :
    ∀ R : List Mapping,
      createArns ((R.filter (fun m => !(decide (m.EventSourceArn ∈ arns)))).map
          (fun m => Event.call (LambdaCall.deleteEventSourceMapping m.UUID m.EventSourceArn))) =
        [] := by
  intro R
  induction R with
  | nil => rfl
  | cons m R ih =>
    by_cases hm : m.EventSourceArn ∈ arns
    · simp [List.filter_cons, hm, ih]
    · simp [List.filter_cons, hm, createArns, List.filterMap_cons, ih]

lemma updateArns_cons_list (functionName : String) (l : List Event) :
    updateArns (Event.call (LambdaCall.listEventSourceMappings functionName) :: l) =
      updateArns l := by
  simp [updateArns, List.filterMap_cons]

lemma createArns_cons_list (functionName : String) (l : List Event) :
    createArns (Event.call (LambdaCall.listEventSourceMappings functionName) :: l) =
      createArns l := by
  simp [createArns, List.filterMap_cons]

lemma deleteArns_cons_list (functionName : String) (l : List Event) :
    deleteArns (Event.call (LambdaCall.listEventSourceMappings functionName) :: l) =
      deleteArns l := by
  simp [deleteArns, List.filterMap_cons]

lemma updateArns_append (l1 l2 : List Event) :
    updateArns (l1 ++ l2) = updateArns l1 ++ updateArns l2 := by
  simp [updateArns, List.filterMap_append]

lemma createArns_append (l1 l2 : List Event) :
    createArns (l1 ++ l2) = createArns l1 ++ createArns l2 := by
  simp [createArns, List.filterMap_append]

lemma deleteArns_append (l1 l2 : List Event) :
    deleteArns (l1 ++ l2) = deleteArns l1 ++ deleteArns l2 := by
  simp [deleteArns, List.filterMap_append]

/-- C4: a synchronization pass with a non-empty configured trigger set, all
sends succeeding.  The queue ARNs receiving update calls are exactly the
configured ARNs that have a remote mapping, in configured order; those
receiving create calls are exactly the configured ARNs without one; those
receiving delete calls are exactly the remote ARNs absent from the
configuration, in listing order — so each matched trigger gets exactly one
update, each unmatched trigger exactly one create, each unconfigured mapping
exactly one delete, and no call references any other queue identifier.  The
trace decomposes as the listing call, then a block of create/update calls
only, then a block of delete calls only: every create/update precedes every
delete. -/
theorem trigger_sync_delta (sends : Nat → Except LErr Unit) (functionName : String)
    (S : List Trigger) (R : List Mapping)
    (hS : S ≠ []) (hok : ∀ k, sends k = Except.ok ()) :
    updateArns (runEventSourceMappings sends functionName R S).2 =
        (S.map Trigger.queueArn).filter
          (fun q => decide (q ∈ R.map Mapping.EventSourceArn)) ∧
      createArns (runEventSourceMappings sends functionName R S).2 =
        (S.map Trigger.queueArn).filter
          (fun q => !(decide (q ∈ R.map Mapping.EventSourceArn))) ∧
      deleteArns (runEventSourceMappings sends functionName R S).2 =
        (R.map Mapping.EventSourceArn).filter
          (fun q => !(decide (q ∈ S.map Trigger.queueArn))) ∧
      (∃ A D, (runEventSourceMappings sends functionName R S).2 =
          Event.call (LambdaCall.listEventSourceMappings functionName) :: (A ++ D) ∧
        (∀ ev ∈ A, isCreateOrUpdateESM ev = true) ∧
        (∀ ev ∈ D, isDeleteESM ev = true)) := by
  have htr : (runEventSourceMappings sends functionName R S).2 =
      updateEventSourceMappings functionName R S := by
    rw [runEventSourceMappings, runEvents_ok sends hok]
  have hlen : ¬(S.length = 0) := by simpa using hS
  rw [htr]
  rw [updateEventSourceMappings, if_neg hlen]
  refine ⟨?_, ?_, ?_, ?_⟩
  · rw [updateArns_cons_list, updateArns_append, updateArns_map_actions,
      updateArns_delete_part]
    simp
  · rw [createArns_cons_list, createArns_append, createArns_map_actions,
      createArns_delete_part]
    simp
  · rw [deleteArns_cons_list, deleteArns_append, deleteArns_map_actions,
      deleteArns_delete_part]
    simp
  · refine ⟨S.map (mkTriggerAction functionName R), _, rfl, ?_, ?_⟩
    · intro ev hev
      rcases List.mem_map.mp hev with ⟨t, ht, hte⟩
      rw [← hte]
      unfold mkTriggerAction
      cases hf : R.find? (fun mm => decide (mm.EventSourceArn = t.queueArn)) <;>
        simp [isCreateOrUpdateESM]
    · intro ev hev
      rcases List.mem_map.mp hev with ⟨m, hm, hme⟩
      rw [← hme]
      simp [isDeleteESM]

/-- C7: a synchronization pass whose configured trigger list is empty issues
no remote calls at all — not even the listing call — for every send oracle
and every set of existing remote mappings, and reports success. -/
theorem empty_trigger_list_noop (sends : Nat → Except LErr Unit)
    (functionName : String) (existing : List Mapping) :
    runEventSourceMappings sends functionName existing [] = (Except.ok (), []) := rfl

/-- Configured trigger for queue A, matching the spec's worked example. -/
def trigA : Trigger := ⟨"arnA", none, none, none⟩

/-- Configured trigger for queue B. -/
def trigB : Trigger := ⟨"arnB", none, none, none⟩

/-- Remote mapping bound to queue A. -/
def mapA : Mapping := ⟨"u1", "arnA"⟩

/-- Remote mapping bound to queue C. -/
def mapC : Mapping := ⟨"u2", "arnC"⟩

theorem trigger_sync_delta_witness :
    updateArns (runEventSourceMappings sendOkAll "fn" [mapA, mapC] [trigA, trigB]).2 =
        ["arnA"] ∧
      createArns (runEventSourceMappings sendOkAll "fn" [mapA, mapC] [trigA, trigB]).2 =
        ["arnB"] ∧
      deleteArns (runEventSourceMappings sendOkAll "fn" [mapA, mapC] [trigA, trigB]).2 =
        ["arnC"] := by
  obtain ⟨h1, h2, h3, -⟩ := trigger_sync_delta sendOkAll "fn" [trigA, trigB] [mapA, mapC]
    (List.cons_ne_nil trigA [trigB]) (fun k => rfl)
  refine ⟨?_, ?_, ?_⟩
  · rw [h1]; rfl
  · rw [h2]; rfl
  · rw [h3]; rfl

/-- Outcome of one whole deployment run after the artifact has been built:
the run's result, its remote-call trace, and whether the local zip artifact
is still on disk when the run terminates. -/
structure DeployOutcome where
  result : Except LErr Unit
  trace : List Event
  zipOnDisk : Bool

/-- The oracles a full deployment run consumes: the existence-check send, the
three oracles of the sequential update path, the create send, the listing
response, and the sends of the trigger-synchronization pass. -/
structure DeployOracle where
  getFn : Except LErr Unit
  codeSend : Nat → Except LErr Unit
  polls : Nat → PollObs
  configSend : Nat → Except LErr Unit
  createSend : Except LErr Unit
  mappings : List Mapping
  syncSends : Nat → Except LErr Unit

/-- `functionExists` (part_000 lines 98-109): a resolved `GetFunction` means
the function exists, a `ResourceNotFoundException` means it does not, and any
other rejection propagates. -/
def functionExists (o : Except LErr Unit) (functionName : String) :
    Except LErr Bool × List Event :=
  match o with
  | Except.ok _ => (Except.ok true, [Event.call (LambdaCall.getFunction functionName)])
  | Except.error LErr.resourceNotFound =>
    (Except.ok false, [Event.call (LambdaCall.getFunction functionName)])
  | Except.error e => (Except.error e, [Event.call (LambdaCall.getFunction functionName)])

/-- The `try` block of `deploy` (part_000 lines 302-334): check existence;
if the function exists run the sequential update and then, when `sqsTriggers`
is present, the trigger synchronization; if it does not exist, require a
truthy `roleArn` (else throw the configuration error), issue the create call,
and then, when `sqsTriggers` is present, the trigger synchronization. -/
def deployTryBody (o : DeployOracle) (cfg : Config) : Except LErr Unit × List Event :=
  match functionExists o.getFn cfg.functionName with
  | (Except.error e, t0) => (Except.error e, t0)
  | (Except.ok true, t0) =>
    match updateFunctionSequential o.codeSend o.polls o.configSend cfg.functionName cfg with
    | (Except.error e, t1) => (Except.error e, t0 ++ t1)
    | (Except.ok _, t1) =>
      match cfg.sqsTriggers with
      | none => (Except.ok (), t0 ++ t1)
      | some trigs =>
        match runEventSourceMappings o.syncSends cfg.functionName o.mappings trigs with
        | (r2, t2) => (r2, t0 ++ t1 ++ t2)
  | (Except.ok false, t0) =>
    if strTruthy cfg.roleArn = false then
      (Except.error (LErr.configurationError "roleArn is required for creating new functions"), t0)
    else
      match o.createSend with
      | Except.error e =>
        (Except.error e, t0 ++ [Event.call (LambdaCall.createFunction (mkCreateParams cfg))])
      | Except.ok _ =>
        match cfg.sqsTriggers with
        | none => (Except.ok (), t0 ++ [Event.call (LambdaCall.createFunction (mkCreateParams cfg))])
        | some trigs =>
          match runEventSourceMappings o.syncSends cfg.functionName o.mappings trigs with
          | (r2, t2) =>
            (r2, t0 ++ [Event.call (LambdaCall.createFunction (mkCreateParams cfg))] ++ t2)

/-- The `finally` block of `deploy` (part_000 lines 335-340): whatever the try
block produced, when the zip file still exists it is unlinked before the run
terminates (and before any error is reported to the caller). -/
def runCleanup (zipOnDisk : Bool) (body : Except LErr Unit × List Event) : DeployOutcome :=
  if zipOnDisk then ⟨body.1, body.2 ++ [Event.unlinkZip], false⟩
  else ⟨body.1, body.2, zipOnDisk⟩

/-- `deploy` (part_000 lines 270-341) from the point where the configuration
has been loaded, `functionName` validated, and the zip artifact successfully
written (part_000 line 300) — so the artifact is on disk when the guarded
`try` block begins. -/
def deploy (o : DeployOracle) (cfg : Config) : DeployOutcome :=
  runCleanup true (deployTryBody o cfg)

/-- A remote call that mutates remote state: function create, code update,
configuration update, or any event-source-mapping create/update/delete. -/
def isMutating (ev : Event) : Bool :=
  match ev with
  | Event.call (LambdaCall.createFunction _) => true
  | Event.call (LambdaCall.updateFunctionCode _) => true
  | Event.call (LambdaCall.updateFunctionConfiguration _) => true
  | Event.call (LambdaCall.createEventSourceMapping _ _ _ _ _) => true
  | Event.call (LambdaCall.updateEventSourceMapping _ _ _ _ _) => true
  | Event.call (LambdaCall.deleteEventSourceMapping _ _) => true
  | _ => false

/-- Number of mutating remote calls in a trace. -/
def mutatingCount (tr : List Event) : Nat :=
  tr.countP isMutating

/-- C5: when the remote function does not exist and no role reference is
supplied (absent or empty, i.e. falsy), the run fails with the configuration
error and the trace holds only the non-mutating existence check and the
artifact unlink — zero mutating remote calls of any kind. -/
theorem missing_role_configuration_error (o : DeployOracle) (cfg : Config)
    (habs : o.getFn = Except.error LErr.resourceNotFound)
    (hrole : strTruthy cfg.roleArn = false) :
    (deploy o cfg).result =
        Except.error (LErr.configurationError "roleArn is required for creating new functions") ∧
      (deploy o cfg).trace =
        [Event.call (LambdaCall.getFunction cfg.functionName), Event.unlinkZip] ∧
      mutatingCount (deploy o cfg).trace = 0 := by
  refine ⟨?_, ?_, ?_⟩ <;>
    simp [deploy, runCleanup, deployTryBody, functionExists, habs, hrole,
      mutatingCount, isMutating]

/-- C8: for every run in which the artifact was created (the modelled entry
point), the zip artifact is absent from the filesystem when the run
terminates — whatever the oracle makes the body do, success or failure — and
the unlink is the last event of the trace, so on failure the artifact is
removed before the error is reported to the caller. -/
theorem artifact_cleanup_always (o : DeployOracle) (cfg : Config) :
    (deploy o cfg).zipOnDisk = false ∧
      ∃ t, (deploy o cfg).trace = t ++ [Event.unlinkZip] :=
  ⟨rfl, ⟨(deployTryBody o cfg).2, rfl⟩⟩

/-- Any call of the trigger-synchronization pass: listing, create, update or
delete of an event-source mapping. -/
def isMappingCall (ev : Event) : Bool :=
  match ev with
  | Event.call (LambdaCall.listEventSourceMappings _) => true
  | Event.call (LambdaCall.createEventSourceMapping _ _ _ _ _) => true
  | Event.call (LambdaCall.updateEventSourceMapping _ _ _ _ _) => true
  | Event.call (LambdaCall.deleteEventSourceMapping _ _) => true
  | _ => false

lemma esm_plan_events (functionName : String) (R : List Mapping) (S : List Trigger) :
    ∀ ev ∈ updateEventSourceMappings functionName R S, isMappingCall ev = true := by
  intro ev hev
  rw [updateEventSourceMappings] at hev
  by_cases hlen : S.length = 0
  · rw [if_pos hlen] at hev
    simp at hev
  · rw [if_neg hlen] at hev
    rcases List.mem_cons.mp hev with h | h
    · rw [h]; rfl
    · rcases List.mem_append.mp h with h | h
      · rcases List.mem_map.mp h with ⟨t, ht, hte⟩
        rw [← hte]
        unfold mkTriggerAction
        cases hf : R.find? (fun mm => decide (mm.EventSourceArn = t.queueArn)) <;>
          simp [isMappingCall]
      · rcases List.mem_map.mp h with ⟨m, hm, hme⟩
        rw [← hme]
        rfl

lemma runESM_events (sends : Nat → Except LErr Unit) (functionName : String)
    (R : List Mapping) (S : List Trigger) :
    ∀ ev ∈ (runEventSourceMappings sends functionName R S).2, isMappingCall ev = true := by
  intro ev hev
  exact esm_plan_events functionName R S ev
    (runEvents_mem sends (updateEventSourceMappings functionName R S) 0 ev hev)

/-- C6: when the remote function does not exist and a truthy role reference
is supplied, the run issues the existence check, then exactly one create
call, then (at most) trigger-synchronization calls, then the artifact unlink
— zero code-update, configuration-update or readiness-poll calls.  The create
call carries every supplied field and, for each unset (falsy) field, the
documented default: runtime `nodejs22.x` (the latest supported LTS), handler
`lambda.handler`, timeout 30, memory 128, empty layer list; the role and
environment pass through as supplied. -/
theorem create_path_single_call_defaults (o : DeployOracle) (cfg : Config)
    (habs : o.getFn = Except.error LErr.resourceNotFound)
    (hrole : strTruthy cfg.roleArn = true) :
    (∃ ts, (deploy o cfg).trace =
        Event.call (LambdaCall.getFunction cfg.functionName) ::
          Event.call (LambdaCall.createFunction (mkCreateParams cfg)) ::
          (ts ++ [Event.unlinkZip]) ∧
      ∀ ev ∈ ts, isMappingCall ev = true) ∧
    (mkCreateParams cfg).FunctionName = cfg.functionName ∧
    (mkCreateParams cfg).Role = cfg.roleArn ∧
    (mkCreateParams cfg).Environment = cfg.environment ∧
    (cfg.runtime = none → (mkCreateParams cfg).Runtime = "nodejs22.x") ∧
    (∀ r, cfg.runtime = some r → r ≠ "" → (mkCreateParams cfg).Runtime = r) ∧
    (cfg.handler = none → (mkCreateParams cfg).Handler = "lambda.handler") ∧
    (∀ h, cfg.handler = some h → h ≠ "" → (mkCreateParams cfg).Handler = h) ∧
    (cfg.timeout = none → (mkCreateParams cfg).Timeout = 30) ∧
    (∀ t, cfg.timeout = some t → t ≠ 0 → (mkCreateParams cfg).Timeout = t) ∧
    (cfg.memorySize = none → (mkCreateParams cfg).MemorySize = 128) ∧
    (∀ m, cfg.memorySize = some m → m ≠ 0 → (mkCreateParams cfg).MemorySize = m) ∧
    (cfg.layers = none → (mkCreateParams cfg).Layers = []) ∧
    (∀ ls, cfg.layers = some ls → (mkCreateParams cfg).Layers = ls) := by
  have hneg : ¬(strTruthy cfg.roleArn = false) := by rw [hrole]; simp
  refine ⟨?_, rfl, rfl, rfl, ?_, ?_, ?_, ?_, ?_, ?_, ?_, ?_, ?_, ?_⟩
  · cases hcs : o.createSend with
    | error e =>
      refine ⟨[], ?_, by intro ev hev; simp at hev⟩
      simp [deploy, runCleanup, deployTryBody, functionExists, habs, hneg, hcs]
    | ok u =>
      cases hst : cfg.sqsTriggers with
      | none =>
        refine ⟨[], ?_, by intro ev hev; simp at hev⟩
        simp [deploy, runCleanup, deployTryBody, functionExists, habs, hneg, hcs, hst]
      | some trigs =>
        rcases hr : runEventSourceMappings o.syncSends cfg.functionName o.mappings trigs
          with ⟨r2, t2⟩
        refine ⟨t2, ?_, ?_⟩
        · simp [deploy, runCleanup, deployTryBody, functionExists, habs, hneg, hcs, hst, hr]
        · intro ev hev
          exact runESM_events o.syncSends cfg.functionName o.mappings trigs ev
            (by rw [hr]; exact hev)
  · intro h; simp [mkCreateParams, jsOrStr, h]
  · intro r hr hne; simp [mkCreateParams, jsOrStr, hr, hne]
  · intro h; simp [mkCreateParams, jsOrStr, h]
  · intro hh hsome hne; simp [mkCreateParams, jsOrStr, hsome, hne]
  · intro h; simp [mkCreateParams, jsOrNat, h]
  · intro t ht hne; simp [mkCreateParams, jsOrNat, ht, hne]
  · intro h; simp [mkCreateParams, jsOrNat, h]
  · intro m hm hne; simp [mkCreateParams, jsOrNat, hm, hne]
  · intro h; simp [mkCreateParams, h]
  · intro ls hls; simp [mkCreateParams, hls]

/-- An oracle for a run against an absent remote function, everything else
resolving. -/
def oracleAbsent : DeployOracle :=
  ⟨Except.error LErr.resourceNotFound, sendOkAll, pollsReady, sendOkAll,
    Except.ok (), [], sendOkAll⟩

theorem missing_role_configuration_error_witness :
    (deploy oracleAbsent cfgPlain).result =
        Except.error (LErr.configurationError "roleArn is required for creating new functions") ∧
      (deploy oracleAbsent cfgPlain).trace =
        [Event.call (LambdaCall.getFunction cfgPlain.functionName), Event.unlinkZip] ∧
      mutatingCount (deploy oracleAbsent cfgPlain).trace = 0 :=
  missing_role_configuration_error oracleAbsent cfgPlain rfl rfl

/-- A configuration supplying only a role reference. -/
def cfgRole : Config :=
  ⟨"fn", some "arn:aws:iam::1:role/r", none, none, none, none, none, none, none, none⟩

theorem create_path_single_call_defaults_witness :
    (mkCreateParams cfgRole).Runtime = "nodejs22.x" := by
  obtain ⟨-, -, -, -, hrt, -⟩ :=
    create_path_single_call_defaults oracleAbsent cfgRole rfl rfl
  exact hrt rfl

/-- C9 (counterexample to uniform runtime defaulting): on a configuration
with the runtime unset, the create path defaults the runtime to
`nodejs22.x` (part_000 line 117) while the configuration-update path defaults
it to `nodejs18.x` (part_000 line 201) — the two defaulting functions are not
equal on runtime, so the canonical-default property fails on this code. -/
theorem runtime_default_drift :
    (mkCreateParams cfgPlain).Runtime = "nodejs22.x" ∧
      (mkConfigParams "fn" cfgPlain).Runtime = "nodejs18.x" ∧
      (mkCreateParams cfgPlain).Runtime ≠ (mkConfigParams "fn" cfgPlain).Runtime := by
  refine ⟨rfl, rfl, ?_⟩
  decide

/-- The older-generation `updateFunction` loop body (part_001 lines 144-156).
The statement inside the `try` is `return this.lambda.send(command)` with no
`await`: the pending promise itself is returned, so the first iteration always
leaves the loop, nothing can be thrown inside the `try` for an asynchronous
rejection, and the `catch` clause — including its conflict branch and its
30-second backoff — can never run for one.  We model the pending promise by
its eventual outcome `send i`, returned unexamined. -/
def updateFunction001Go (functionName : String) (send : Nat → Except LErr Unit) :
    Nat → Nat → Except LErr Unit × List Event
  | 0, _ => (Except.ok (), [])
  | _fuel + 1, i =>
    (send i, [Event.call (LambdaCall.updateFunctionCode functionName)])

/-- `updateFunction` of the older generation (part_001 lines 133-157):
`for (let i = 0; i < 3; i++) try { return this.lambda.send(command) } ...`. -/
def updateFunction001 (functionName : String) (send : Nat → Except LErr Unit) :
    Except LErr Unit × List Event :=
  updateFunction001Go functionName send 3 0

/-- C10: in the older-generation code-update path the un-awaited send is
returned from inside the `try`, so the call's outcome is exactly the first
send's outcome — a rejection (conflict included) propagates directly to the
caller — the trace holds exactly one attempt, and no backoff wait ever
occurs in this path. -/
theorem legacy_update_no_retry (functionName : String) (send : Nat → Except LErr Unit) :
    updateFunction001 functionName send =
        (send 0, [Event.call (LambdaCall.updateFunctionCode functionName)]) ∧
      waitsOf (updateFunction001 functionName send).2 = [] ∧
      callCount (updateFunction001 functionName send).2 = 1 := by
  refine ⟨rfl, rfl, rfl⟩
